import Mathlib

/-!
Verification of the variant-annotation pipeline (`annotateVariants.py`).

The development shallowly embeds the Python source. Python machine floats
are modelled exactly as dyadic rationals `num / 2 ^ k` (IEEE-754 binary64
round-to-nearest-even, normal range); Python integers are `Int`/`Nat`;
fallible code (uncaught `KeyError`, `IndexError`, `ValueError`,
`ZeroDivisionError` — all fatal in the script) returns `Option`.
All definitions are kernel-computable: no `Rat` arithmetic appears in
executable positions, only in theorem statements.
-/

/-! ### Binary64 arithmetic, modelled exactly -/

/-- Fuel-driven base-`b` logarithm (structural recursion so that the kernel
can evaluate it; `Nat.log2` itself is defined by well-founded recursion). -/
def nlogGo (b : ℕ) : ℕ → ℕ → ℕ
  | 0, _ => 0
  | fuel + 1, n => if n < b then 0 else nlogGo b fuel (n / b) + 1

/-- `nlog b n` = largest `e` with `b ^ e ≤ n` (for `n ≥ 1`, `b ≥ 2`). -/
def nlog (b n : ℕ) : ℕ := nlogGo b n n

/-- Round `num / den` to the nearest natural, ties to even
(the rounding used by IEEE-754 binary64 and by CPython's float `format`). -/
def rheN (num den : ℕ) : ℕ :=
  if 2 * (num % den) < den then num / den
  else if den < 2 * (num % den) then num / den + 1
  else if (num / den) % 2 = 0 then num / den else num / den + 1

/-- Signed version of `rheN` (denominator positive). -/
def rheZ (num : ℤ) (den : ℕ) : ℤ :=
  if 0 ≤ num then (rheN num.toNat den : ℤ) else -(rheN (-num).toNat den : ℤ)

/-- A binary64 value, represented exactly as `num / 2 ^ k`. -/
structure Dyadic where
  num : ℤ
  k : ℕ
  deriving DecidableEq, Repr

/-- The rational value of a dyadic. Used only in specifications. -/
def Dyadic.val (d : Dyadic) : ℚ := (d.num : ℚ) / 2 ^ d.k

/-- Binary exponent of `a / b` (`a, b ≥ 1`): the `e : ℤ` with
`2 ^ e ≤ a / b < 2 ^ (e + 1)`. -/
def posExpN (a b : ℕ) : ℤ :=
  if a * 2 ^ nlog 2 b < b * 2 ^ nlog 2 a then (nlog 2 a : ℤ) - nlog 2 b - 1
  else (nlog 2 a : ℤ) - nlog 2 b

/-- Round the positive rational `a / b` (`a, b ≥ 1`) to binary64:
a 53-bit significand scaled by the binary exponent.  Normal range only
(the script never feeds the float formatter subnormal or huge values). -/
def posFloatN (a b : ℕ) : Dyadic :=
  if posExpN a b ≤ 52 then
    ⟨(rheN (a * 2 ^ (52 - posExpN a b).toNat) b : ℤ), (52 - posExpN a b).toNat⟩
  else
    ⟨(rheN a (b * 2 ^ (posExpN a b - 52).toNat) * 2 ^ (posExpN a b - 52).toNat : ℤ), 0⟩

/-- Python's true division `a / b` on two machine integers: the exact
quotient rounded to binary64.  `b = 0` never reaches this point in the
embedding (the `ZeroDivisionError` is modelled at the call sites). -/
def floatDivI (a b : ℤ) : Dyadic :=
  if a = 0 ∨ b = 0 then ⟨0, 0⟩
  else if (a < 0) ↔ (b < 0) then posFloatN a.natAbs b.natAbs
  else
    let d := posFloatN a.natAbs b.natAbs
    ⟨-d.num, d.k⟩

/-! ### CPython float formatting -/

/-- The integer `round(1000 * d)` with ties to even: the number of
thousandths shown by `"{:.3f}".format`. -/
def thousandths (d : Dyadic) : ℤ := rheZ (1000 * d.num) (2 ^ d.k)

/-- Left-pad to three digits. -/
def pad3 (n : ℕ) : String :=
  if n < 10 then "00" ++ Nat.repr n
  else if n < 100 then "0" ++ Nat.repr n
  else Nat.repr n

/-- Format a non-negative thousandths count as `d.ddd`. -/
def fmt3n (t : ℕ) : String := Nat.repr (t / 1000) ++ "." ++ pad3 (t % 1000)

/-- Python `"{:.3f}".format(x)` on a binary64 `x`: fixed-point, three
decimals, correctly rounded (a binary64 is never an exact midpoint of the
thousandths grid, so the tie rule is unobservable here). -/
def fmt3 (d : Dyadic) : String :=
  if d.num < 0 then "-" ++ fmt3n (thousandths ⟨-d.num, d.k⟩).toNat
  else fmt3n (thousandths d).toNat

/-- Is `num / 2 ^ k < 10 ^ d`? (`num ≥ 1`). -/
def dyadicLtPow10 (num k : ℕ) (d : ℤ) : Bool :=
  if 0 ≤ d then num < 2 ^ k * 10 ^ d.toNat else num * 10 ^ (-d).toNat < 2 ^ k

/-- Decimal exponent of the positive dyadic `num / 2 ^ k`: the `d : ℤ`
with `10 ^ d ≤ num / 2 ^ k < 10 ^ (d + 1)`. -/
def decExpN (num k : ℕ) : ℤ :=
  let d0 : ℤ := (nlog 10 num : ℤ) - nlog 10 (2 ^ k)
  if dyadicLtPow10 num k d0 then d0 - 1 else d0

/-- Round the positive dyadic `num / 2 ^ k` to four significant decimal
digits: returns the digit block `m ∈ [1000, 9999]` and the decimal
exponent of the rounded value. -/
def sig4 (num k : ℕ) : ℕ × ℤ :=
  let d := decExpN num k
  let m := if d ≤ 3 then rheN (num * 10 ^ (3 - d).toNat) (2 ^ k)
           else rheN num (2 ^ k * 10 ^ (d - 3).toNat)
  if m = 10000 then (1000, d + 1) else (m, d)

/-- Drop trailing `'0'` characters. -/
def stripZeros (s : String) : String :=
  String.mk (s.data.reverse.dropWhile (fun c => c = '0')).reverse

/-- Two-digit exponent field of Python's scientific notation. -/
def pad2 (n : ℕ) : String := if n < 10 then "0" ++ Nat.repr n else Nat.repr n

/-- Python `"{:.4}".format(x)` on a non-negative binary64 `x`: general
format with four significant digits — fixed notation with trailing zeros
stripped (at least one fractional digit kept) while the decimal exponent
is at least `-4`, scientific notation below that. -/
def fmt4 (x : Dyadic) : String :=
  if x.num ≤ 0 then "0.0"
  else
    let (m, d) := sig4 x.num.toNat x.k
    let ds := Nat.repr m
    if d < -4 then
      let s := stripZeros ds
      let mant := if s.length = 1 then s else s.take 1 ++ "." ++ s.drop 1
      mant ++ "e-" ++ pad2 (-d).toNat
    else if d < 0 then
      "0." ++ String.mk (List.replicate ((-d).toNat - 1) '0') ++ stripZeros ds
    else
      let intPart := ds.take (d.toNat + 1) ++
        String.mk (List.replicate (d.toNat + 1 - ds.length) '0')
      let frac := stripZeros (ds.drop (d.toNat + 1))
      if frac = "" then intPart ++ ".0" else intPart ++ "." ++ frac

/-! ### Python string and int primitives -/

/-- Structural worker for `splitCh`. -/
def splitChAux (c : Char) : List Char → List Char → List String
  | [], acc => [String.mk acc.reverse]
  | x :: xs, acc =>
    if x = c then String.mk acc.reverse :: splitChAux c xs [] else splitChAux c xs (x :: acc)

/-- Python `s.split(c)` for a one-character separator (keeps empty parts;
`"".split(c) == ['']`). -/
def splitCh (c : Char) (s : String) : List String := splitChAux c s.data []

/-- Python `c in s` for a one-character needle. -/
def containsCh (c : Char) (s : String) : Bool := s.data.contains c

/-- Python `s.startswith("#")`. -/
def isCommentLine (s : String) : Bool :=
  match s.data with
  | '#' :: _ => true
  | _ => false

/-- Digit run to a natural number. -/
def digitsToNat (cs : List Char) : Option ℕ :=
  if cs ≠ [] ∧ cs.all Char.isDigit then
    some (cs.foldl (fun n c => n * 10 + (c.toNat - 48)) 0)
  else none

/-- Python `int(s)` on the digit strings (optionally signed) that a VCF
INFO field carries; anything else raises `ValueError` (fatal). -/
def pyInt (s : String) : Option ℤ :=
  match s.data with
  | '-' :: rest => (digitsToNat rest).map (fun n => -(n : ℤ))
  | cs => (digitsToNat cs).map (fun n => (n : ℤ))

/-- Evaluate `f` over a list, failing as soon as one element fails —
the effect of a Python loop or comprehension whose body can raise. -/
def mapMO (f : α → Option β) : List α → Option (List β)
  | [] => some []
  | x :: xs => do
    let y ← f x
    let ys ← mapMO f xs
    pure (y :: ys)

/-- Python `sep.join(parts)`. -/
def joinSep (sep : String) : List String → String
  | [] => ""
  | [x] => x
  | x :: xs => x ++ sep ++ joinSep sep xs

/-! ### The `Variant` record (class `Variant` in `annotateVariants.py`) -/

/-- One VCF record, as the script's `Variant.__init__` stores it. -/
structure Variant where
  chr : String
  pos : String
  id : String
  ref : String
  alt : String
  qual : String
  type : String
  depth : String
  varTotalReads : String
  refTotalReads : ℤ
  percentRatio : String
  effect : String
  alleleFreq : String
  deriving DecidableEq, Repr

/-- The loop body shared by both branches of
`Variant.getPercentageVarVsRef`: `varPercent = int(val) / (int(val) + RO)`,
`refPercent = RO / (int(val) + RO)`, `"{:.3f}:{:.3f}".format(...)`.
`none` models the fatal `ValueError` of `int(val)` and the
`ZeroDivisionError` when the read counts sum to zero. -/
def allelePair (refTotalReads : ℤ) (val : String) : Option String := do
  let v ← pyInt val
  if v + refTotalReads = 0 then none
  else
    some (fmt3 (floatDivI v (v + refTotalReads)) ++ ":" ++
          fmt3 (floatDivI refTotalReads (v + refTotalReads)))

/-- `Variant.getPercentageVarVsRef`: the variant-vs-reference read-support
ratio string — if `AO` contains a comma, one pair per comma-separated
entry joined by `","`, otherwise the single pair. -/
def getPercentageVarVsRef (varTotalReads : String) (refTotalReads : ℤ) : Option String :=
  if containsCh ',' varTotalReads then
    (mapMO (allelePair refTotalReads) (splitCh ',' varTotalReads)).map
      (joinSep ",")
  else allelePair refTotalReads varTotalReads

/-- Build the `key=value` mapping from the `;`-separated INFO field;
`none` models the `ValueError` when an entry does not split into exactly
two parts around `=`. -/
def parseInfo (info : String) : Option (List (String × String)) :=
  mapMO (fun x =>
    match splitCh '=' x with
    | [k, v] => some (k, v)
    | _ => none) (splitCh ';' info)

/-- Python `dict` lookup on the built mapping (later assignments win);
`none` models the fatal `KeyError`. -/
def dictLookup (pairs : List (String × String)) (k : String) : Option String :=
  ((pairs.reverse).find? (fun p => p.1 == k)).map (fun p => p.2)

/-- `Variant.__init__`: split the line on tabs into the eleven fields,
build the INFO mapping, require `TYPE`, `DP`, `AO`, `RO`, and derive the
support ratio.  `none` models any of the fatal constructor errors. -/
def parseVariant (vcfLine : String) : Option Variant :=
  match splitCh '\t' vcfLine with
  | [chr, pos, id, ref, alt, qual, _filter, info, _format, _normal, _va5] => do
    let pairs ← parseInfo info
    let type ← dictLookup pairs "TYPE"
    let depth ← dictLookup pairs "DP"
    let varTotalReads ← dictLookup pairs "AO"
    let roStr ← dictLookup pairs "RO"
    let refTotalReads ← pyInt roStr
    let percentRatio ← getPercentageVarVsRef varTotalReads refTotalReads
    some { chr, pos, id, ref, alt, qual, type, depth, varTotalReads,
           refTotalReads, percentRatio, effect := "", alleleFreq := "" }
  | _ => none

/-- `Variant.vepFormat`: the one entry this variant contributes to the
effect-service request. -/
def Variant.vepFormat (v : Variant) : String :=
  joinSep "\t" [v.chr, v.pos, v.id, v.ref, v.alt]

/-- `Variant.updateEffect`. -/
def Variant.updateEffect (v : Variant) (effect : String) : Variant :=
  { v with effect := effect }

/-- `Variant.exacFormat`: the frequency-service key for this variant. -/
def Variant.exacFormat (v : Variant) : String :=
  joinSep "-" [v.chr, v.pos, v.ref, v.alt]

/-- `Variant.updateAlleleFreq`. -/
def Variant.updateAlleleFreq (v : Variant) (af : String) : Variant :=
  { v with alleleFreq := af }

/-- The field list `Variant.printVariant` joins with tabs, in source order. -/
def printFields (v : Variant) : List String :=
  [v.chr, v.pos, v.id, v.ref, v.alt, v.type, v.effect, v.depth,
   v.varTotalReads, v.percentRatio, v.alleleFreq]

/-- `Variant.printVariant`: one output row (sans the trailing newline). -/
def printVariantLine (v : Variant) : String :=
  joinSep "\t" (printFields v)

/-- The header fields `main` writes, in source order. -/
def headerFields : List String :=
  ["#CHROM", "POS", "ID", "REF", "ALT", "TYPE", "EFFECT", "DEPTH",
   "SUPPORT", "VAR:REF READS", "ALLELE FREQ"]

/-- The header row of the report. -/
def headerLine : String := joinSep "\t" headerFields

/-! ### The two enrichment clients -/

/-- The request body `vepPOSTRequest` builds: one `vepFormat` entry per
buffered variant. -/
def vepRequest (variantInput : List Variant) : List String :=
  variantInput.map Variant.vepFormat

/-- The merge loop of `vepPOSTRequest`: `variantInput[i].updateEffect
(jsonResult[i]['most_severe_consequence'])` for each `i` below the batch
length.  A response shorter than the batch raises `IndexError` (fatal,
modelled `none`, nothing of the batch written); extra entries beyond the
batch length are silently ignored. -/
def vepApply (jsonResult : List String) (variantInput : List Variant) :
    Option (List Variant) :=
  match variantInput, jsonResult with
  | [], _ => some []
  | _ :: _, [] => none
  | v :: vs, e :: es => (vepApply es vs).map (fun rest => v.updateEffect e :: rest)

/-- A frequency-service response, abstracted at the point the script reads
it: for a key, `none` when the key is absent, `some none` when the record
is present but `["variant"]["allele_freq"]` is missing or not a number,
`some (some f)` when it carries the binary64 `f` (Python's `json` has
already parsed the number to a float). -/
def ExacResponse := String → Option (Option Dyadic)

/-- The per-variant loop of `exacPOSTRequest`: look this variant's own key
up in the response; on success format the frequency to four significant
digits, on any failure substitute the `"."` sentinel.  Total — the
`try/except` confines every failure to the one variant. -/
def exacApply (result : ExacResponse) (variantInput : List Variant) : List Variant :=
  variantInput.map (fun var =>
    var.updateAlleleFreq
      (match result var.exacFormat with
       | some (some f) => fmt4 f
       | _ => "."))

/-! ### The driver (`main`) -/

/-- `numLines`: the script counts the lines that are not bare newlines. -/
def countNumLines (lines : List String) : ℕ :=
  (lines.filter (fun l => l ≠ "")).length

/-- The reading loop of `main`, one step per input line.  State: the
current buffer `variantList`, the running `lineCount`, and the variants
already written.  A batch is flushed through both services when the buffer
holds 200 variants or `lineCount` has reached `numLines`; `none` models
any fatal error (parse failure or effect-response `IndexError`). -/
def runLoop (vepResp : List String → List String) (exacResp : ExacResponse)
    (numLines : ℕ) :
    List String → ℕ → List Variant → List Variant → Option (List Variant)
  | [], _, _, written => some written
  | line :: rest, lineCount, variantList, written =>
    if isCommentLine line then
      runLoop vepResp exacResp numLines rest (lineCount + 1) variantList written
    else do
      let v ← parseVariant line
      let vl := variantList ++ [v]
      if vl.length = 200 ∨ lineCount + 1 = numLines then do
        let merged ← vepApply (vepResp (vepRequest vl)) vl
        runLoop vepResp exacResp numLines rest (lineCount + 1) []
          (written ++ exacApply exacResp merged)
      else
        runLoop vepResp exacResp numLines rest (lineCount + 1) vl written

/-- `main`, abstracted over the two services: the list of variants written
to the report (in order), or `none` on a fatal error.  Each written
variant becomes the row `printVariantLine v` under `headerLine`. -/
def runMain (vepResp : List String → List String) (exacResp : ExacResponse)
    (lines : List String) : Option (List Variant) :=
  runLoop vepResp exacResp (countNumLines lines) lines 0 [] []

/-- The number of non-comment input lines. -/
def nonCommentCount (lines : List String) : ℕ :=
  (lines.filter (fun l => ¬ isCommentLine l)).length

/-! ### Specification-side definitions (for refinement claims) -/

/-- The ratio formula as §4.2 of the specification words it: for each
variant read count `v` (one per allele), the pair
`v / (v + r) : r / (v + r)`, three decimals each, pairs joined by `,`. -/
def specSupportRatio (entries : List ℤ) (r : ℤ) : String :=
  joinSep "," (entries.map (fun v =>
    fmt3 (floatDivI v (v + r)) ++ ":" ++ fmt3 (floatDivI r (v + r))))

/-! ### Concrete sample data for the closed checks -/

/-- A well-formed single-allele VCF data line. -/
def sampleLine : String :=
  "1\t100\t.\tA\tC\t50\tPASS\tTYPE=snp;DP=50;AO=10;RO=40\tGT\tS1\tS2"

/-- The `Variant` that `parseVariant sampleLine` constructs. -/
def sampleVariant : Variant :=
  { chr := "1", pos := "100", id := ".", ref := "A", alt := "C", qual := "50",
    type := "snp", depth := "50", varTotalReads := "10", refTotalReads := 40,
    percentRatio := "0.200:0.800", effect := "", alleleFreq := "" }

/-- A multi-allelic `Variant` (alternate alleles `C,T`). -/
def multiVariant : Variant :=
  { chr := "1", pos := "100", id := ".", ref := "A", alt := "C,T", qual := "50",
    type := "snp,snp", depth := "50", varTotalReads := "3,5", refTotalReads := 10,
    percentRatio := "0.231:0.769,0.333:0.667", effect := "", alleleFreq := "" }

/-- A frequency-service response carrying `allele_freq = 0.125` for the
sample variant's key and no entry for any other key. -/
def sampleExacResponse : ExacResponse :=
  fun key => if key = "1-100-A-C" then some (some ⟨1, 3⟩) else none

/-- An effect-service response of the correct cardinality: one consequence
string per request entry. -/
def constantVepOracle : List String → List String :=
  fun req => req.map (fun _ => "missense_variant")

/-- An effect-service response that always has exactly two entries,
whatever the batch size. -/
def twoEntryVepOracle : List String → List String :=
  fun _ => ["effectA", "effectB"]

/-- A frequency-service response with no entries at all. -/
def emptyExacResponse : ExacResponse := fun _ => none

/-! ### Helper lemmas -/

/-- Rounding half-to-even is within half a unit of the exact quotient. -/
lemma rheN_err (num den : ℕ) (hd : 0 < den) :
    |(rheN num den : ℚ) - (num : ℚ) / den| ≤ 1 / 2 := by
  have hd0 : ((den : ℚ)) ≠ 0 := by positivity
  have hdpos : (0 : ℚ) < den := by positivity
  have hnum : (num : ℚ) = den * ((num / den : ℕ) : ℚ) + ((num % den : ℕ) : ℚ) := by
    exact_mod_cast (Nat.div_add_mod num den).symm
  have hrlt : ((num % den : ℕ) : ℚ) < den := by exact_mod_cast Nat.mod_lt _ hd
  have hrge : (0 : ℚ) ≤ ((num % den : ℕ) : ℚ) := by positivity
  have hQR : (num : ℚ) / den = ((num / den : ℕ) : ℚ) + ((num % den : ℕ) : ℚ) / den := by
    rw [hnum]; field_simp; ring
  unfold rheN
  split_ifs with h1 h2 h3
  · have h1q : 2 * ((num % den : ℕ) : ℚ) < den := by exact_mod_cast h1
    have key : (((num / den : ℕ) : ℚ)) - (num : ℚ) / den = -(((num % den : ℕ) : ℚ) / den) := by
      rw [hQR]; ring
    rw [key, abs_neg, abs_of_nonneg (by positivity)]
    rw [div_le_div_iff₀ hdpos (by norm_num : (0:ℚ) < 2)]
    linarith
  · have h2q : (den : ℚ) < 2 * ((num % den : ℕ) : ℚ) := by exact_mod_cast h2
    have key : (((num / den : ℕ) + 1 : ℕ) : ℚ) - (num : ℚ) / den =
        1 - ((num % den : ℕ) : ℚ) / den := by
      push_cast
      rw [hQR]; ring
    rw [key, abs_of_nonneg]
    · have hh : (1 : ℚ) / 2 ≤ ((num % den : ℕ) : ℚ) / den := by
        rw [div_le_div_iff₀ (by norm_num : (0:ℚ) < 2) hdpos]
        linarith
      linarith
    · have hh : ((num % den : ℕ) : ℚ) / den < 1 := by
        rw [div_lt_one hdpos]; exact hrlt
      linarith
  · have heq : (den : ℚ) = 2 * ((num % den : ℕ) : ℚ) := by
      have h4 := le_antisymm (not_lt.mp h2) (not_lt.mp h1)
      exact_mod_cast h4.symm
    have key : (((num / den : ℕ) : ℚ)) - (num : ℚ) / den = -(((num % den : ℕ) : ℚ) / den) := by
      rw [hQR]; ring
    rw [key, abs_neg, abs_of_nonneg (by positivity)]
    rw [div_le_div_iff₀ hdpos (by norm_num : (0:ℚ) < 2)]
    linarith [heq]
  · have heq : (den : ℚ) = 2 * ((num % den : ℕ) : ℚ) := by
      have h4 := le_antisymm (not_lt.mp h2) (not_lt.mp h1)
      exact_mod_cast h4.symm
    have key : (((num / den : ℕ) + 1 : ℕ) : ℚ) - (num : ℚ) / den =
        1 - ((num % den : ℕ) : ℚ) / den := by
      push_cast
      rw [hQR]; ring
    rw [key, abs_of_nonneg]
    · have hh : ((num % den : ℕ) : ℚ) / den = 1 / 2 := by
        rw [div_eq_div_iff hd0 (by norm_num : (2:ℚ) ≠ 0)]
        linarith [heq]
      linarith
    · have hh : ((num % den : ℕ) : ℚ) / den < 1 := by
        rw [div_lt_one hdpos]; exact hrlt
      linarith

/-- The fuel-driven logarithm agrees with `Nat.log` once the fuel covers the
argument. -/
lemma nlogGo_eq_log (b : ℕ) (hb : 1 < b) :
    ∀ fuel n, n ≤ fuel → nlogGo b fuel n = Nat.log b n := by
  intro fuel
  induction fuel with
  | zero =>
    intro n hn
    have : n = 0 := Nat.le_zero.mp hn
    subst this
    simp [nlogGo]
  | succ f ih =>
    intro n hn
    by_cases h : n < b
    · have : Nat.log b n = 0 := by
        rw [Nat.log_eq_zero_iff]; exact Or.inl h
      simp [nlogGo, h, this]
    · push_neg at h
      have hn2 : n / b ≤ f := by
        have h1 : n / b < n := Nat.div_lt_self (by omega) hb
        omega
      have hlogpos : 0 < Nat.log b n := Nat.log_pos hb h
      have hdiv : Nat.log b (n / b) = Nat.log b n - 1 := Nat.log_div_base b n
      simp only [nlogGo, if_neg (by omega : ¬ n < b)]
      rw [ih _ hn2, hdiv]
      omega

/-- `nlog b` agrees with `Nat.log b`. -/
lemma nlog_eq_log (b n : ℕ) (hb : 1 < b) : nlog b n = Nat.log b n :=
  nlogGo_eq_log b hb n n le_rfl

/-- For `a ≤ b` the binary exponent of `a / b` is at most zero. -/
lemma posExpN_nonpos (a b : ℕ) (hab : a ≤ b) : posExpN a b ≤ 0 := by
  have hm : nlog 2 a ≤ nlog 2 b := by
    rw [nlog_eq_log _ _ one_lt_two, nlog_eq_log _ _ one_lt_two]
    exact Nat.log_mono_right hab
  unfold posExpN
  split_ifs <;> omega

/-- `posFloatN` on a quotient in `(0, 1]` is within `2 ^ (-53)` of it. -/
lemma posFloatN_err (a b : ℕ) (ha : 0 < a) (hab : a ≤ b) :
    |(posFloatN a b).val - (a : ℚ) / b| ≤ 1 / 2 ^ 53 := by
  have hb : 0 < b := lt_of_lt_of_le ha hab
  have he : posExpN a b ≤ 0 := posExpN_nonpos a b hab
  have hk : 52 ≤ (52 - posExpN a b).toNat := by omega
  unfold posFloatN
  rw [if_pos (by omega : posExpN a b ≤ 52)]
  set k := (52 - posExpN a b).toNat with hkdef
  have hb0 : ((b : ℚ)) ≠ 0 := by positivity
  have h2k : ((2 : ℚ) ^ k) ≠ 0 := by positivity
  have h2kpos : (0 : ℚ) < 2 ^ k := by positivity
  have herr := rheN_err (a * 2 ^ k) b hb
  have hval : (Dyadic.val ⟨(rheN (a * 2 ^ k) b : ℤ), k⟩ : ℚ) - (a : ℚ) / b =
      ((rheN (a * 2 ^ k) b : ℚ) - ((a * 2 ^ k : ℕ) : ℚ) / b) / 2 ^ k := by
    simp only [Dyadic.val]
    push_cast
    field_simp
    ring
  rw [hval, abs_div, abs_of_pos h2kpos]
  rw [div_le_div_iff₀ h2kpos (by positivity : (0:ℚ) < 2 ^ 53)]
  calc |(rheN (a * 2 ^ k) b : ℚ) - ((a * 2 ^ k : ℕ) : ℚ) / b| * 2 ^ 53
      ≤ (1 / 2) * 2 ^ 53 := by
        apply mul_le_mul_of_nonneg_right herr (by positivity)
    _ ≤ 1 * 2 ^ k := by
        rw [one_mul]
        have h1 : ((2:ℚ)) ^ 53 ≤ 2 ^ (k + 1) :=
          pow_le_pow_right₀ (by norm_num) (by omega)
        have h2 : ((2:ℚ)) ^ (k + 1) = 2 ^ k * 2 := pow_succ 2 k
        linarith

/-- The significand of a rounded positive quotient is non-negative. -/
lemma posFloatN_num_nonneg (a b : ℕ) : 0 ≤ (posFloatN a b).num := by
  unfold posFloatN
  split_ifs <;> positivity

/-- Python float division of non-negative machine ints has a non-negative
significand. -/
lemma floatDivN_num_nonneg (v n : ℕ) : 0 ≤ (floatDivI (v : ℤ) (n : ℤ)).num := by
  unfold floatDivI
  split_ifs with h1 h2
  · exact le_refl 0
  · exact posFloatN_num_nonneg _ _
  · exfalso
    exact h2 (iff_of_false (not_lt.mpr (Int.natCast_nonneg v)) (not_lt.mpr (Int.natCast_nonneg n)))

/-- Python float division `v / n` on naturals with `v ≤ n` is within
`2 ^ (-53)` of the exact quotient. -/
lemma floatDivN_err (v n : ℕ) (hn : 0 < n) (hv : v ≤ n) :
    |(floatDivI (v : ℤ) (n : ℤ)).val - (v : ℚ) / n| ≤ 1 / 2 ^ 53 := by
  rcases Nat.eq_zero_or_pos v with hv0 | hvpos
  · subst hv0
    simp [floatDivI, Dyadic.val]
  · have h1 : ¬ ((v : ℤ) = 0 ∨ (n : ℤ) = 0) := by
      push_neg
      exact ⟨Int.natCast_ne_zero.mpr hvpos.ne', Int.natCast_ne_zero.mpr hn.ne'⟩
    have h2 : ((v : ℤ) < 0) ↔ ((n : ℤ) < 0) :=
      iff_of_false (not_lt.mpr (Int.natCast_nonneg v)) (not_lt.mpr (Int.natCast_nonneg n))
    unfold floatDivI
    rw [if_neg h1, if_pos h2, Int.natAbs_ofNat, Int.natAbs_ofNat]
    exact posFloatN_err v n hvpos hv

/-- The thousandths count shown by `fmt3` is within half a thousandth of the
formatted value. -/
lemma thousandths_err (d : Dyadic) (hd : 0 ≤ d.num) :
    |(thousandths d : ℚ) - 1000 * d.val| ≤ 1 / 2 := by
  unfold thousandths rheZ
  rw [if_pos (by positivity : (0:ℤ) ≤ 1000 * d.num)]
  have h2k : (0:ℕ) < 2 ^ d.k := pow_pos (by norm_num) d.k
  have herr := rheN_err (1000 * d.num).toNat (2 ^ d.k) h2k
  have htn : (((1000 * d.num).toNat : ℕ) : ℚ) = ((1000 * d.num : ℤ) : ℚ) := by
    have h := Int.toNat_of_nonneg (by positivity : (0:ℤ) ≤ 1000 * d.num)
    exact_mod_cast congrArg (fun z : ℤ => (z : ℚ)) h
  have hxy : (((1000 * d.num).toNat : ℕ) : ℚ) / ((2 ^ d.k : ℕ) : ℚ) = 1000 * d.val := by
    rw [htn]
    unfold Dyadic.val
    push_cast
    ring
  rw [hxy] at herr
  exact herr

/-- Amended §8 sum property: after the two binary64 divisions and the two
roundings to three decimals, the formatted pair sums to `1.000` within one
thousandth (not within `0.0005`: both roundings can fall the same way). -/
theorem supportRatio_pair_sum (v r : ℕ) (h : 0 < v + r) :
    |(thousandths (floatDivI (v : ℤ) ((v + r : ℕ) : ℤ)) : ℚ) / 1000 +
     (thousandths (floatDivI (r : ℤ) ((v + r : ℕ) : ℤ)) : ℚ) / 1000 - 1| ≤ 1 / 1000 := by
  set x₁ := floatDivI (v : ℤ) ((v + r : ℕ) : ℤ) with hx₁
  set x₂ := floatDivI (r : ℤ) ((v + r : ℕ) : ℤ) with hx₂
  have e₁ := floatDivN_err v (v + r) h (Nat.le_add_right v r)
  have e₂ := floatDivN_err r (v + r) h (Nat.le_add_left r v)
  have t₁ := thousandths_err x₁ (floatDivN_num_nonneg v (v + r))
  have t₂ := thousandths_err x₂ (floatDivN_num_nonneg r (v + r))
  have hn0 : (((v + r : ℕ)) : ℚ) ≠ 0 := by positivity
  have hsum : (v : ℚ) / ((v + r : ℕ) : ℚ) + (r : ℚ) / ((v + r : ℕ) : ℚ) = 1 := by
    rw [div_add_div_same]
    rw [div_eq_one_iff_eq hn0]
    push_cast
    ring
  have a₁ := abs_le.mp e₁
  have a₂ := abs_le.mp e₂
  have b₁ := abs_le.mp t₁
  have b₂ := abs_le.mp t₂
  have hub : ((thousandths x₁ + thousandths x₂ - 1000 : ℤ) : ℚ) ≤ 1 + 2000 / 2 ^ 53 := by
    push_cast
    linarith [a₁.1, a₁.2, a₂.1, a₂.2, b₁.1, b₁.2, b₂.1, b₂.2]
  have hlb : (-(1 + 2000 / 2 ^ 53) : ℚ) ≤ ((thousandths x₁ + thousandths x₂ - 1000 : ℤ) : ℚ) := by
    push_cast
    linarith [a₁.1, a₁.2, a₂.1, a₂.2, b₁.1, b₁.2, b₂.1, b₂.2]
  have hzu : thousandths x₁ + thousandths x₂ - 1000 ≤ 1 := by
    by_contra hc
    push_neg at hc
    have hc2 : (2:ℤ) ≤ thousandths x₁ + thousandths x₂ - 1000 := by omega
    have h2le : (2 : ℚ) ≤ ((thousandths x₁ + thousandths x₂ - 1000 : ℤ) : ℚ) := by
      exact_mod_cast hc2
    have : (1 : ℚ) + 2000 / 2 ^ 53 < 2 := by norm_num
    linarith
  have hzl : -1 ≤ thousandths x₁ + thousandths x₂ - 1000 := by
    by_contra hc
    push_neg at hc
    have hc2 : thousandths x₁ + thousandths x₂ - 1000 ≤ -2 := by omega
    have h2le : ((thousandths x₁ + thousandths x₂ - 1000 : ℤ) : ℚ) ≤ -2 := by
      exact_mod_cast hc2
    have : (-2 : ℚ) < -(1 + 2000 / 2 ^ 53) := by norm_num
    linarith
  have hfin : (thousandths x₁ : ℚ) / 1000 + (thousandths x₂ : ℚ) / 1000 - 1 =
      ((thousandths x₁ + thousandths x₂ - 1000 : ℤ) : ℚ) / 1000 := by
    push_cast
    ring
  rw [hfin]
  rw [abs_div, abs_of_pos (by norm_num : (0:ℚ) < 1000)]
  have hzq : |((thousandths x₁ + thousandths x₂ - 1000 : ℤ) : ℚ)| ≤ 1 := by
    rw [← Int.cast_abs]
    exact_mod_cast abs_le.mpr ⟨hzl, hzu⟩
  linarith

/-- Parsing every comma-separated `AO` entry determines the multi-allele
loop: one formatted pair per parsed entry. -/
lemma mapMO_allelePair (r : ℤ) :
    ∀ (parts : List String) (entries : List ℤ),
      mapMO pyInt parts = some entries →
      (∀ v ∈ entries, v + r ≠ 0) →
      mapMO (allelePair r) parts =
        some (entries.map (fun v =>
          fmt3 (floatDivI v (v + r)) ++ ":" ++ fmt3 (floatDivI r (v + r)))) := by
  intro parts
  induction parts with
  | nil =>
    intro entries hm _
    simp only [mapMO, Option.some.injEq] at hm
    simp [mapMO, ← hm]
  | cons p ps ih =>
    intro entries hm hnz
    cases hp : pyInt p with
    | none => simp [mapMO, hp] at hm
    | some v =>
      cases hps : mapMO pyInt ps with
      | none => simp [mapMO, hp, hps] at hm
      | some es =>
        simp only [mapMO, hp, hps, Option.pure_def, Option.bind_eq_bind,
          Option.some_bind, Option.some.injEq] at hm
        subst hm
        have hv : v + r ≠ 0 := hnz v (List.mem_cons_self v es)
        simp only [mapMO, allelePair, hp, Option.pure_def, Option.bind_eq_bind,
          Option.some_bind, if_neg hv,
          ih es hps (fun w hw => hnz w (List.mem_cons_of_mem v hw)),
          List.map_cons]

/-- C3: the support-ratio computation implements the §4.2 formula — for a
comma-separated `AO` one `varPct:refPct` pair per entry against the shared
`RO`, joined by `","`; for a single `AO` the single pair. -/
theorem getPercentage_refines_spec (s : String) (r : ℤ) :
    (containsCh ',' s = true →
      ∀ entries : List ℤ, mapMO pyInt (splitCh ',' s) = some entries →
      (∀ v ∈ entries, v + r ≠ 0) →
      getPercentageVarVsRef s r = some (specSupportRatio entries r)) ∧
    (containsCh ',' s = false →
      ∀ v : ℤ, pyInt s = some v → v + r ≠ 0 →
      getPercentageVarVsRef s r = some (specSupportRatio [v] r)) := by
  constructor
  · intro hc entries hm hnz
    unfold getPercentageVarVsRef
    rw [if_pos hc, mapMO_allelePair r _ entries hm hnz]
    rfl
  · intro hc v hv hnz
    unfold getPercentageVarVsRef
    rw [if_neg (by simp [hc])]
    simp [allelePair, hv, if_neg hnz, specSupportRatio, joinSep]

/-- C3 witness: `AO = "3,5"`, `RO = 10` produces the worked example of §8,
`0.231:0.769,0.333:0.667`. -/
theorem getPercentage_refines_spec_witness :
    getPercentageVarVsRef "3,5" 10 = some "0.231:0.769,0.333:0.667" ∧
    specSupportRatio [3, 5] 10 = "0.231:0.769,0.333:0.667" :=
  ⟨((getPercentage_refines_spec "3,5" 10).1 (by decide) [3, 5] (by decide)
      (by decide)).trans (by decide),
   by decide⟩

/-- C8: on an 11-field line whose INFO field parses, the constructor fails
(fatally) exactly when one of `TYPE`, `DP`, `AO`, `RO` is missing from the
mapping; with all four present (and the derived values well-formed) it
yields the `Variant` carrying them. -/
theorem parseVariant_requires_keys
    (line chrF posF idF refF altF qualF filterF infoF formatF normalF va5F : String)
    (pairs : List (String × String))
    (hsplit : splitCh '\t' line =
      [chrF, posF, idF, refF, altF, qualF, filterF, infoF, formatF, normalF, va5F])
    (hinfo : parseInfo infoF = some pairs) :
    ((dictLookup pairs "TYPE" = none ∨ dictLookup pairs "DP" = none ∨
      dictLookup pairs "AO" = none ∨ dictLookup pairs "RO" = none) →
      parseVariant line = none) ∧
    (∀ (tv dv av rv : String) (ri : ℤ) (ratio : String),
      dictLookup pairs "TYPE" = some tv → dictLookup pairs "DP" = some dv →
      dictLookup pairs "AO" = some av → dictLookup pairs "RO" = some rv →
      pyInt rv = some ri → getPercentageVarVsRef av ri = some ratio →
      parseVariant line =
        some { chr := chrF, pos := posF, id := idF, ref := refF, alt := altF,
               qual := qualF, type := tv, depth := dv, varTotalReads := av,
               refTotalReads := ri, percentRatio := ratio, effect := "",
               alleleFreq := "" }) := by
  constructor
  · intro hmiss
    unfold parseVariant
    rw [hsplit]
    rcases hmiss with h | h | h | h
    · simp [hinfo, h]
    · cases ht : dictLookup pairs "TYPE" <;> simp [hinfo, ht, h]
    · cases ht : dictLookup pairs "TYPE" <;> cases hd : dictLookup pairs "DP" <;>
        simp [hinfo, ht, hd, h]
    · cases ht : dictLookup pairs "TYPE" <;> cases hd : dictLookup pairs "DP" <;>
        cases ha : dictLookup pairs "AO" <;> simp [hinfo, ht, hd, ha, h]
  · intro tv dv av rv ri ratio ht hd ha hr hri hratio
    unfold parseVariant
    rw [hsplit]
    simp [hinfo, ht, hd, ha, hr, hri, hratio]

/-- C8 witness: the sample line has all four keys and parses to the sample
variant (`TYPE=snp`, `DP=50`, `AO=10`, `RO=40`). -/
theorem parseVariant_requires_keys_witness :
    parseVariant sampleLine = some sampleVariant :=
  ((parseVariant_requires_keys sampleLine "1" "100" "." "A" "C" "50" "PASS"
      "TYPE=snp;DP=50;AO=10;RO=40" "GT" "S1" "S2"
      [("TYPE", "snp"), ("DP", "50"), ("AO", "10"), ("RO", "40")]
      (by decide) (by decide)).2
    "snp" "50" "10" "40" 40 "0.200:0.800"
    (by decide) (by decide) (by decide) (by decide) (by decide) (by decide)).trans
    (by decide)

/-- C7: the frequency merge is per-variant — each buffered variant gets
`alleleFreq` from its own key: the four-significant-digit format of the
numeric `allele_freq` when the response carries it, the `"."` sentinel when
the key is absent or the record malformed; nothing else about the variant
(or any other variant) changes, and the batch keeps its length. -/
theorem exacApply_pointwise (result : ExacResponse) (variantInput : List Variant)
    (i : ℕ) (hi : i < variantInput.length) :
    (exacApply result variantInput).length = variantInput.length ∧
    (exacApply result variantInput)[i]? =
      some ((variantInput.get ⟨i, hi⟩).updateAlleleFreq
        (match result (variantInput.get ⟨i, hi⟩).exacFormat with
         | some (some f) => fmt4 f
         | _ => ".")) := by
  constructor
  · simp [exacApply]
  · unfold exacApply
    rw [List.getElem?_map, List.getElem?_eq_getElem hi]
    simp [List.get_eq_getElem]

/-- C7 witness: with a response holding `allele_freq = 0.125` for the first
variant's key `1-100-A-C` and nothing for the second, the first variant gets
`"0.125"` and the second the `"."` sentinel. -/
theorem exacApply_pointwise_witness :
    (exacApply sampleExacResponse [sampleVariant, multiVariant])[0]? =
      some (sampleVariant.updateAlleleFreq "0.125") ∧
    (exacApply sampleExacResponse [sampleVariant, multiVariant])[1]? =
      some (multiVariant.updateAlleleFreq ".") :=
  ⟨((exacApply_pointwise sampleExacResponse [sampleVariant, multiVariant] 0
      (by decide)).2).trans (by decide),
   ((exacApply_pointwise sampleExacResponse [sampleVariant, multiVariant] 1
      (by decide)).2).trans (by decide)⟩

/-- The effect merge succeeds on a response at least as long as the batch
and is positional: variant `i` gets response entry `i`. -/
lemma vepApply_eq_zipWith :
    ∀ (variantInput : List Variant) (jsonResult : List String),
      variantInput.length ≤ jsonResult.length →
      vepApply jsonResult variantInput =
        some (List.zipWith Variant.updateEffect variantInput jsonResult) := by
  intro vs
  induction vs with
  | nil => intro js _; cases js <;> simp [vepApply]
  | cons v tl ih =>
    intro js h
    cases js with
    | nil => simp at h
    | cons e es =>
      simp only [List.zipWith_cons_cons, vepApply]
      rw [ih es (by simpa using h)]
      rfl

/-- C10: the effect merge only sets `effect` (to the positionally matching
response entry) and the frequency merge only sets `alleleFreq`; every other
field of every variant, and the buffer's length and order, are unchanged by
both enrichment calls. -/
theorem enrichment_frame (jsonResult : List String) (variantInput : List Variant)
    (hlen : variantInput.length ≤ jsonResult.length) (result : ExacResponse) :
    vepApply jsonResult variantInput =
      some (List.zipWith Variant.updateEffect variantInput jsonResult) ∧
    (List.zipWith Variant.updateEffect variantInput jsonResult).length =
      variantInput.length ∧
    (∀ i (hi : i < variantInput.length),
      (List.zipWith Variant.updateEffect variantInput jsonResult)[i]? =
        some ((variantInput.get ⟨i, hi⟩).updateEffect
          (jsonResult.get ⟨i, Nat.lt_of_lt_of_le hi hlen⟩))) ∧
    ((exacApply result variantInput).length = variantInput.length ∧
      ∀ i (hi : i < variantInput.length),
      (exacApply result variantInput)[i]? =
        some ((variantInput.get ⟨i, hi⟩).updateAlleleFreq
          (match result (variantInput.get ⟨i, hi⟩).exacFormat with
           | some (some f) => fmt4 f
           | _ => "."))) ∧
    (∀ (v : Variant) (e : String),
      (v.updateEffect e).chr = v.chr ∧ (v.updateEffect e).pos = v.pos ∧
      (v.updateEffect e).id = v.id ∧ (v.updateEffect e).ref = v.ref ∧
      (v.updateEffect e).alt = v.alt ∧ (v.updateEffect e).qual = v.qual ∧
      (v.updateEffect e).type = v.type ∧ (v.updateEffect e).depth = v.depth ∧
      (v.updateEffect e).varTotalReads = v.varTotalReads ∧
      (v.updateEffect e).refTotalReads = v.refTotalReads ∧
      (v.updateEffect e).percentRatio = v.percentRatio ∧
      (v.updateEffect e).alleleFreq = v.alleleFreq ∧
      (v.updateEffect e).effect = e) ∧
    (∀ (v : Variant) (a : String),
      (v.updateAlleleFreq a).chr = v.chr ∧ (v.updateAlleleFreq a).pos = v.pos ∧
      (v.updateAlleleFreq a).id = v.id ∧ (v.updateAlleleFreq a).ref = v.ref ∧
      (v.updateAlleleFreq a).alt = v.alt ∧ (v.updateAlleleFreq a).qual = v.qual ∧
      (v.updateAlleleFreq a).type = v.type ∧ (v.updateAlleleFreq a).depth = v.depth ∧
      (v.updateAlleleFreq a).varTotalReads = v.varTotalReads ∧
      (v.updateAlleleFreq a).refTotalReads = v.refTotalReads ∧
      (v.updateAlleleFreq a).percentRatio = v.percentRatio ∧
      (v.updateAlleleFreq a).effect = v.effect ∧
      (v.updateAlleleFreq a).alleleFreq = a) := by
  refine ⟨vepApply_eq_zipWith variantInput jsonResult hlen, ?_, ?_, ?_, ?_, ?_⟩
  · rw [List.length_zipWith]
    exact min_eq_left hlen
  · intro i hi
    rw [List.getElem?_zipWith']
    rw [List.getElem?_eq_getElem hi, List.getElem?_eq_getElem (Nat.lt_of_lt_of_le hi hlen)]
    simp [List.get_eq_getElem]
  · refine ⟨by simp [exacApply], fun i hi => ?_⟩
    unfold exacApply
    rw [List.getElem?_map, List.getElem?_eq_getElem hi]
    simp [List.get_eq_getElem]
  · exact fun v e =>
      ⟨rfl, rfl, rfl, rfl, rfl, rfl, rfl, rfl, rfl, rfl, rfl, rfl, rfl⟩
  · exact fun v a =>
      ⟨rfl, rfl, rfl, rfl, rfl, rfl, rfl, rfl, rfl, rfl, rfl, rfl, rfl⟩

/-- C10 witness: a one-variant batch with a one-entry effect response and
the sample frequency response. -/
theorem enrichment_frame_witness :
    vepApply ["effectA"] [sampleVariant] =
      some (List.zipWith Variant.updateEffect [sampleVariant] ["effectA"]) :=
  (enrichment_frame ["effectA"] [sampleVariant] (by decide) sampleExacResponse).1

/-- Claim C2, failing input: with `AO = "0"`, `RO = 0` the source raises
`ZeroDivisionError` (modelled `none`) instead of returning the
`"0.000:0.000"` the specification requires. -/
theorem ratio_zero_reads_fault : getPercentageVarVsRef "0" 0 = none := by decide

/-- Claim C1, failing input: an effect response longer than the batch
(2 entries for a 1-variant batch) is merged silently — entry 0 lands on
variant 0, the surplus is dropped, no error is raised, and the batch is
written; the required `ResponseCardinalityMismatch` abort does not exist. -/
theorem vep_mismatch_silent :
    (vepRequest [sampleVariant]).length = 1 ∧
    (twoEntryVepOracle (vepRequest [sampleVariant])).length = 2 ∧
    vepApply (twoEntryVepOracle (vepRequest [sampleVariant])) [sampleVariant] =
      some [sampleVariant.updateEffect "effectA"] ∧
    runMain twoEntryVepOracle emptyExacResponse [sampleLine] =
      some [(sampleVariant.updateEffect "effectA").updateAlleleFreq "."] := by
  refine ⟨by decide, by decide, by decide, by decide⟩

/-- Claim C4, failing input: when the last input line is a comment, the
`lineCount == numLines` trigger fires on the comment branch where no flush
happens, so the buffered variant of the one non-comment line is never
enriched or written: the run ends with zero rows for one input record. -/
theorem final_flush_skipped_on_trailing_comment :
    runMain constantVepOracle emptyExacResponse [sampleLine, "#trailing comment"] =
      some [] ∧
    nonCommentCount [sampleLine, "#trailing comment"] = 1 := by
  refine ⟨by decide, by decide⟩

/-- Claim C6, counterexample: for the multi-allelic variant with
`ALT = "C,T"` the single request entry carries the full comma-joined
allele list, not the first allele `"C"`. -/
theorem vep_entry_full_alt_counterexample :
    vepRequest [multiVariant] = ["1\t100\t.\tA\tC,T"] ∧
    containsCh ',' multiVariant.alt = true ∧
    (splitCh ',' multiVariant.alt).headD "" = "C" ∧
    multiVariant.vepFormat ≠
      joinSep "\t" [multiVariant.chr, multiVariant.pos, multiVariant.id,
        multiVariant.ref, (splitCh ',' multiVariant.alt).headD ""] := by
  refine ⟨by decide, by decide, by decide, by decide⟩

/-- Claim C6 as amended: the effect request has exactly one entry per
buffered variant, each formed from the variant's full `ALT` field verbatim
(the comma-joined allele list for a multi-allelic variant). -/
theorem vep_request_one_entry_full_alt (variantInput : List Variant) :
    (vepRequest variantInput).length = variantInput.length ∧
    vepRequest variantInput = variantInput.map (fun v =>
      joinSep "\t" [v.chr, v.pos, v.id, v.ref, v.alt]) :=
  ⟨List.length_map _ _, rfl⟩

/-- Claim C9: the report is one fixed header row and one tab-joined row per
variant, both carrying exactly the eleven columns chromosome, position,
identifier, reference, alternate, type, effect, depth, variant-read-count,
support-ratio, allele-frequency, in this order. -/
theorem report_columns (v : Variant) :
    headerLine = joinSep "\t" headerFields ∧
    headerFields = ["#CHROM", "POS", "ID", "REF", "ALT", "TYPE", "EFFECT", "DEPTH",
      "SUPPORT", "VAR:REF READS", "ALLELE FREQ"] ∧
    headerFields.length = 11 ∧
    printVariantLine v = joinSep "\t" (printFields v) ∧
    printFields v = [v.chr, v.pos, v.id, v.ref, v.alt, v.type, v.effect, v.depth,
      v.varTotalReads, v.percentRatio, v.alleleFreq] ∧
    (printFields v).length = 11 :=
  ⟨rfl, rfl, rfl, rfl, rfl, rfl⟩

/-- Claim C5, counterexample: at `AO = 1`, `RO = 79` the script formats
`0.013:0.988` — the pair sums to `1.001`, outside the claimed `±0.0005`. -/
theorem ratio_sum_tolerance_counterexample :
    getPercentageVarVsRef "1" 79 = some "0.013:0.988" ∧
    fmt3 (floatDivI 1 80) = "0.013" ∧ fmt3 (floatDivI 79 80) = "0.988" ∧
    thousandths (floatDivI 1 80) = 13 ∧ thousandths (floatDivI 79 80) = 988 ∧
    ¬ (|(thousandths (floatDivI 1 80) : ℚ) / 1000 +
        (thousandths (floatDivI 79 80) : ℚ) / 1000 - 1| ≤ 1 / 2000) := by
  refine ⟨by decide, by decide, by decide, by decide, by decide, ?_⟩
  rw [(by decide : thousandths (floatDivI 1 80) = (13 : ℤ)),
      (by decide : thousandths (floatDivI 79 80) = (988 : ℤ))]
  rw [show ((13 : ℤ) : ℚ) / 1000 + ((988 : ℤ) : ℚ) / 1000 - 1 = 1 / 1000 by norm_num]
  rw [abs_of_nonneg (by norm_num : (0 : ℚ) ≤ 1 / 1000)]
  norm_num

/-- Claim C5 witness (for the amended tolerance): the `AO = 10`, `RO = 40`
pair. -/
theorem supportRatio_pair_sum_witness :
    0 < 10 + 40 ∧
    |(thousandths (floatDivI ((10 : ℕ) : ℤ) ((10 + 40 : ℕ) : ℤ)) : ℚ) / 1000 +
     (thousandths (floatDivI ((40 : ℕ) : ℤ) ((10 + 40 : ℕ) : ℤ)) : ℚ) / 1000 - 1| ≤
      1 / 1000 :=
  ⟨by norm_num, supportRatio_pair_sum 10 40 (by norm_num)⟩
